import Mathlib

/-!
Verification of the Tanmatsu screenshot plugin (src/main.c).

The development shallowly embeds the two components of the plugin:

* the chord detector `input_hook_callback`, which watches the raw scancode
  stream for LOGO+P (either meta key held, then P pressed) and fires one
  screenshot capture per recognized chord;
* the framebuffer encoder `save_screenshot`, which fetches the current PAX
  framebuffer, builds a timestamped filename, and writes a binary PPM (P6)
  file whose payload is the BGR framebuffer re-ordered to RGB;
* the plugin lifecycle functions `plugin_init` / `plugin_cleanup`, which
  manage the input-hook registration handle.

Mutable globals of the C code (`logo_key_held`, `hook_id`) become explicit
state threaded through the functions.  I/O becomes an explicit result value:
`SaveResult` records which step of the capture aborted, or the path and the
exact byte sequence written on success.  Machine integers carry no overflow
in any reachable computation here, so they are modelled by `Nat` (and `Int`
for the possibly-negative registration handle).
-/

namespace Screenshot

/-! ### Scancodes (src/main.c lines 20-24) -/

def BSP_INPUT_SCANCODE_P : Nat := 0x19

def BSP_INPUT_SCANCODE_LEFTMETA : Nat := 0xe05b

def BSP_INPUT_SCANCODE_RIGHTMETA : Nat := 0xe05c

def BSP_INPUT_SCANCODE_LEFTMETA_REL : Nat := 0xe0db

def BSP_INPUT_SCANCODE_RIGHTMETA_REL : Nat := 0xe0dc

/-- Modelled from the spec: the event kind of `plugin_input_event_t` (the
host header is not part of this repository).  Only scancode events are
relevant; all other kinds are collapsed into `other`. -/
inductive EventType where
  | scancode : EventType
  | other : EventType
deriving DecidableEq

/-- Modelled from the spec: the fields of `plugin_input_event_t` that the
callback reads, an event kind and a numeric key code. -/
structure PluginInputEvent where
  type : EventType
  key : Nat
deriving DecidableEq

/-! ### The framebuffer and the capture environment -/

/-- The fields of `pax_buf_t` read by `save_screenshot`: physical width and
height, and the raw pixel bytes (`pax_buf_get_pixels`, which may be NULL,
hence `Option`).  The buffer is a byte array indexed by `Nat`; the code
trusts its length, so a total function models it. -/
structure PaxBuf where
  width : Nat
  height : Nat
  pixels : Option (Nat → Nat)

/-- The fields of `struct tm` used by the filename format, in declaration
order.  Wall-clock local times have nonnegative fields, so `Nat`. -/
structure Tm where
  tm_sec : Nat
  tm_min : Nat
  tm_hour : Nat
  tm_mday : Nat
  tm_mon : Nat
  tm_year : Nat
deriving DecidableEq

/-- The external world one invocation of `save_screenshot` observes:
the display subsystem answer (`asp_disp_get_pax_buf`, NULL modelled as
`none`), the local time decomposition of `time(NULL)`, and whether
`fopen` succeeds. -/
structure Env where
  buf : Option PaxBuf
  tm : Tm
  openOk : Bool

/-- Outcome of one `save_screenshot` call: which guard aborted it, or the
path and complete byte sequence written. -/
inductive SaveResult where
  | noBuffer : SaveResult
  | noPixels : SaveResult
  | openFailed : List Char → SaveResult
  | saved : List Char → List Nat → SaveResult

/-- The file contents produced by a `SaveResult`: `none` unless the save
completed, in which case the path and the bytes written. -/
def fileCreated : SaveResult → Option (List Char × List Nat)
  | .saved path bytes => some (path, bytes)
  | _ => none

/-- Whether the `SaveResult` reached the `fopen` call (step 4). -/
def openAttempted : SaveResult → Bool
  | .noBuffer => false
  | .noPixels => false
  | .openFailed _ => true
  | .saved _ _ => true

/-! ### Decimal formatting (printf %d / %0Nd on nonnegative values) -/

/-- Little-endian decimal digits of `n`, computed with structural fuel so
that it reduces definitionally.  Agrees with `Nat.digits 10` (see
`decAux_eq_digits`). -/
def decAux : Nat → Nat → List Nat
  | _, 0 => []
  | 0, _ + 1 => []
  | fuel + 1, n + 1 => ((n + 1) % 10) :: decAux fuel ((n + 1) / 10)

/-- Decimal digit values of `n`, most significant first; `%d` prints `0`
as a single digit. -/
def decimal (n : Nat) : List Nat :=
  if n = 0 then [0] else (decAux n n).reverse

/-- The ASCII bytes `%d` emits for a nonnegative value. -/
def decBytes (n : Nat) : List Nat :=
  (decimal n).map (fun d => d + 48)

/-- The characters `%d` emits for a nonnegative value. -/
def decChars (n : Nat) : List Char :=
  (decimal n).map Nat.digitChar

/-- The characters `%0Nd` emits for a nonnegative value: the decimal
digits, left-padded with zeros to at least `w` characters. -/
def padDec (w n : Nat) : List Char :=
  List.replicate (w - (decChars n).length) '0' ++ decChars n

/-! ### The encoder `save_screenshot` (src/main.c lines 26-85) -/

/-- The destination path built by the `snprintf` at lines 51-54:
`/sd/screenshot-YYYYMMDDHHMMSS.ppm`, truncated by `snprintf` to the 63
characters that fit the 64-byte buffer with its NUL terminator. -/
def screenshotFilename (tm : Tm) : List Char :=
  (String.data "/sd/screenshot-" ++
    padDec 4 (tm.tm_year + 1900) ++ padDec 2 (tm.tm_mon + 1) ++
    padDec 2 tm.tm_mday ++ padDec 2 tm.tm_hour ++ padDec 2 tm.tm_min ++
    padDec 2 tm.tm_sec ++ String.data ".ppm").take 63

/-- The bytes of the PPM header written by
`fprintf(file, "P6\n%d %d\n255\n", width, height)`:
`P` `6` `\n` digits-of-width `space` digits-of-height `\n` `2` `5` `5` `\n`. -/
def ppmHeaderBytes (w h : Nat) : List Nat :=
  [80, 54, 10] ++ decBytes w ++ [32] ++ decBytes h ++ [10, 50, 53, 53, 10]

/-- The pixel payload written by the double loop at lines 71-81: rows top
to bottom, columns left to right, each pixel read as 3 source bytes at
`idx = (y*width + x)*3` and written back in reversed order
(`pixels[idx+2]`, `pixels[idx+1]`, `pixels[idx+0]`). -/
def ppmPayload (w h : Nat) (pixels : Nat → Nat) : List Nat :=
  (List.range h).flatMap fun y =>
    (List.range w).flatMap fun x =>
      let idx := (y * w + x) * 3
      [pixels (idx + 2), pixels (idx + 1), pixels idx]

/-- The encoder `save_screenshot`: abort if the display subsystem has no
surface, abort if the surface exposes no pixel buffer, compute the
timestamped path, abort if the destination cannot be opened, else write
the P6 header followed by the re-ordered pixel payload. -/
def save_screenshot (env : Env) : SaveResult :=
  match env.buf with
  | none => .noBuffer
  | some buf =>
    match buf.pixels with
    | none => .noPixels
    | some pixels =>
      let filename := screenshotFilename env.tm
      if env.openOk then
        .saved filename
          (ppmHeaderBytes buf.width buf.height ++
            ppmPayload buf.width buf.height pixels)
      else
        .openFailed filename

/-! ### The chord detector `input_hook_callback` (src/main.c lines 88-120) -/

/-- One invocation of the input hook callback.  Input: the environment a
capture would observe, the current `logo_key_held` flag, and the event.
Output: (the `bool` the callback returns — `true` consumes the event,
the new `logo_key_held` flag, `some` capture result iff `save_screenshot`
was invoked). -/
def input_hook_callback (env : Env) (held : Bool) (event : PluginInputEvent) :
    Bool × Bool × Option SaveResult :=
  if event.type ≠ EventType.scancode then
    (false, held, none)
  else
    let scancode := event.key
    if scancode = BSP_INPUT_SCANCODE_LEFTMETA ∨ scancode = BSP_INPUT_SCANCODE_RIGHTMETA then
      (false, true, none)
    else if scancode = BSP_INPUT_SCANCODE_LEFTMETA_REL ∨ scancode = BSP_INPUT_SCANCODE_RIGHTMETA_REL then
      (false, false, none)
    else if scancode = BSP_INPUT_SCANCODE_P ∧ held = true then
      (true, false, some (save_screenshot env))
    else
      (false, held, none)

/-- The host dispatch loop: deliver a sequence of events to the callback in
order, threading the `logo_key_held` state.  Returns the final state and
the number of capture invocations. -/
def runEvents (env : Env) (held : Bool) : List PluginInputEvent → Bool × Nat
  | [] => (held, 0)
  | event :: rest =>
    let step := input_hook_callback env held event
    let tail := runEvents env step.2.1 rest
    (tail.1, (if step.2.2.isSome then 1 else 0) + tail.2)

/-! ### Event classification helpers -/

/-- A modifier (LOGO) press event: a scancode event whose code is the left
or right meta press code. -/
def isModPress (e : PluginInputEvent) : Bool :=
  match e.type with
  | .scancode => e.key == BSP_INPUT_SCANCODE_LEFTMETA || e.key == BSP_INPUT_SCANCODE_RIGHTMETA
  | .other => false

/-- A modifier (LOGO) release event. -/
def isModRelease (e : PluginInputEvent) : Bool :=
  match e.type with
  | .scancode => e.key == BSP_INPUT_SCANCODE_LEFTMETA_REL || e.key == BSP_INPUT_SCANCODE_RIGHTMETA_REL
  | .other => false

/-- A trigger (P) press event. -/
def isTrigPress (e : PluginInputEvent) : Bool :=
  match e.type with
  | .scancode => e.key == BSP_INPUT_SCANCODE_P
  | .other => false

/-! ### Plugin lifecycle (src/main.c lines 140-169) -/

/-- The lifecycle state: the `hook_id` global, plus two observation
counters (not program state) recording how often `asp_plugin_input_hook_register`
succeeded and how often `asp_plugin_input_hook_unregister` was called. -/
structure LifecycleState where
  hook_id : Int
  succRegs : Nat
  unregs : Nat
deriving DecidableEq

/-- `plugin_init`: store the handle the host registration call returns in
`hook_id`; a negative handle means registration failed and init returns
`-1`, otherwise init returns `0`.  `r` is the host's return value. -/
def plugin_init (st : LifecycleState) (r : Int) : Int × LifecycleState :=
  let st' : LifecycleState :=
    { hook_id := r
      succRegs := st.succRegs + (if r < 0 then 0 else 1)
      unregs := st.unregs }
  if r < 0 then (-1, st') else (0, st')

/-- `plugin_cleanup`: unregister only when `hook_id` is nonnegative, then
reset the handle to `-1`; otherwise do nothing. -/
def plugin_cleanup (st : LifecycleState) : LifecycleState :=
  if 0 ≤ st.hook_id then
    { hook_id := -1, succRegs := st.succRegs, unregs := st.unregs + 1 }
  else
    st

/-- A host-driven lifecycle interaction: each `init r` is an init call in
which the host registration returns handle `r`; `cleanup` is a cleanup
call. -/
inductive LifecycleOp where
  | init : Int → LifecycleOp
  | cleanup : LifecycleOp

/-- Run a sequence of lifecycle calls from a state. -/
def runLifecycle (st : LifecycleState) : List LifecycleOp → LifecycleState
  | [] => st
  | op :: rest =>
    let st' := match op with
      | .init r => (plugin_init st r).2
      | .cleanup => plugin_cleanup st
    runLifecycle st' rest

/-- The fresh lifecycle state: `static int hook_id = -1`. -/
def initialLifecycleState : LifecycleState :=
  { hook_id := -1, succRegs := 0, unregs := 0 }

/-! ### Shared helper facts about the callback -/

/-- A sample environment in which the capture would fail (no surface). -/
def envNoSurface : Env :=
  { buf := none, tm := ⟨0, 0, 0, 1, 0, 70⟩, openOk := false }

/-- Event shorthand used by witnesses. -/
def evScan (k : Nat) : PluginInputEvent :=
  { type := EventType.scancode, key := k }

/-- The callback invokes the capture only on a trigger press seen while the
modifier is held. -/
lemma fired_imp (env : Env) (held : Bool) (e : PluginInputEvent)
    (h : (input_hook_callback env held e).2.2.isSome = true) :
    isTrigPress e = true ∧ held = true := by
  rcases e with ⟨t, k⟩
  cases t <;>
    simp only [input_hook_callback, isTrigPress] at h ⊢ <;>
    split_ifs at h <;> simp_all

/-- The callback leaves the modifier flag `true` only after a modifier
press, or when it was already `true` and the event was not a modifier
release and did not fire. -/
lemma newHeld_true_imp (env : Env) (held : Bool) (e : PluginInputEvent)
    (hf : (input_hook_callback env held e).2.2.isSome = false)
    (h : (input_hook_callback env held e).2.1 = true) :
    isModPress e = true ∨ (held = true ∧ isModRelease e = false) := by
  rcases e with ⟨t, k⟩
  cases t <;>
    simp only [input_hook_callback, isModPress, isModRelease] at h hf ⊢ <;>
    split_ifs at h hf <;> simp_all

/-! ### Claim theorems -/

/-- C1: from ModifierState not-held, the event sequence [modifier-press,
trigger-press] (either meta key as the modifier) invokes the capture
exactly once and leaves ModifierState not-held. -/
theorem chord_fires_once (env : Env) (m : Nat)
    (hm : m = BSP_INPUT_SCANCODE_LEFTMETA ∨ m = BSP_INPUT_SCANCODE_RIGHTMETA) :
    runEvents env false [evScan m, evScan BSP_INPUT_SCANCODE_P] = (false, 1) := by
  rcases hm with rfl | rfl <;>
    simp [runEvents, input_hook_callback, evScan, BSP_INPUT_SCANCODE_P,
      BSP_INPUT_SCANCODE_LEFTMETA, BSP_INPUT_SCANCODE_RIGHTMETA,
      BSP_INPUT_SCANCODE_LEFTMETA_REL, BSP_INPUT_SCANCODE_RIGHTMETA_REL]

theorem chord_fires_once_witness :
    (BSP_INPUT_SCANCODE_LEFTMETA = BSP_INPUT_SCANCODE_LEFTMETA ∨
      BSP_INPUT_SCANCODE_LEFTMETA = BSP_INPUT_SCANCODE_RIGHTMETA) ∧
    runEvents envNoSurface false
      [evScan BSP_INPUT_SCANCODE_LEFTMETA, evScan BSP_INPUT_SCANCODE_P] = (false, 1) :=
  ⟨Or.inl rfl, chord_fires_once envNoSurface BSP_INPUT_SCANCODE_LEFTMETA (Or.inl rfl)⟩

/-- C3: from ModifierState not-held, the event sequence [modifier-press,
trigger-press, trigger-press] invokes the capture exactly once; the state
is reset to not-held immediately after firing, so after the first two
events the state is already not-held and the second trigger press does not
fire. -/
theorem repeat_requires_repress (env : Env) (m : Nat)
    (hm : m = BSP_INPUT_SCANCODE_LEFTMETA ∨ m = BSP_INPUT_SCANCODE_RIGHTMETA) :
    runEvents env false
      [evScan m, evScan BSP_INPUT_SCANCODE_P, evScan BSP_INPUT_SCANCODE_P] = (false, 1) ∧
    runEvents env false [evScan m, evScan BSP_INPUT_SCANCODE_P] = (false, 1) := by
  rcases hm with rfl | rfl <;>
    constructor <;>
    simp [runEvents, input_hook_callback, evScan, BSP_INPUT_SCANCODE_P,
      BSP_INPUT_SCANCODE_LEFTMETA, BSP_INPUT_SCANCODE_RIGHTMETA,
      BSP_INPUT_SCANCODE_LEFTMETA_REL, BSP_INPUT_SCANCODE_RIGHTMETA_REL]

theorem repeat_requires_repress_witness :
    (BSP_INPUT_SCANCODE_RIGHTMETA = BSP_INPUT_SCANCODE_LEFTMETA ∨
      BSP_INPUT_SCANCODE_RIGHTMETA = BSP_INPUT_SCANCODE_RIGHTMETA) ∧
    runEvents envNoSurface false
      [evScan BSP_INPUT_SCANCODE_RIGHTMETA, evScan BSP_INPUT_SCANCODE_P,
        evScan BSP_INPUT_SCANCODE_P] = (false, 1) :=
  ⟨Or.inr rfl,
    (repeat_requires_repress envNoSurface BSP_INPUT_SCANCODE_RIGHTMETA (Or.inr rfl)).1⟩

/-- C5: per-event contract — a trigger press while the modifier is held is
reported handled; modifier press and release events are reported not
handled; a non-scancode event is reported not handled and leaves the state
unchanged; any other scancode is reported not handled and leaves the state
unchanged. -/
theorem consumption_semantics (env : Env) (held : Bool) (e : PluginInputEvent) :
    (isTrigPress e = true → held = true →
      (input_hook_callback env held e).1 = true) ∧
    (isModPress e = true ∨ isModRelease e = true →
      (input_hook_callback env held e).1 = false) ∧
    (e.type ≠ EventType.scancode →
      (input_hook_callback env held e).1 = false ∧
      (input_hook_callback env held e).2.1 = held) ∧
    (e.type = EventType.scancode →
      isTrigPress e = false → isModPress e = false → isModRelease e = false →
      (input_hook_callback env held e).1 = false ∧
      (input_hook_callback env held e).2.1 = held) := by
  rcases e with ⟨t, k⟩
  cases t <;>
    refine ⟨?_, ?_, ?_, ?_⟩ <;>
    simp only [input_hook_callback, isTrigPress, isModPress, isModRelease] <;>
    intros <;> split_ifs <;>
    simp_all [BSP_INPUT_SCANCODE_P, BSP_INPUT_SCANCODE_LEFTMETA,
      BSP_INPUT_SCANCODE_RIGHTMETA, BSP_INPUT_SCANCODE_LEFTMETA_REL,
      BSP_INPUT_SCANCODE_RIGHTMETA_REL]

theorem consumption_semantics_witness :
    isTrigPress (evScan BSP_INPUT_SCANCODE_P) = true ∧
    (input_hook_callback envNoSurface true (evScan BSP_INPUT_SCANCODE_P)).1 = true :=
  ⟨by decide,
    (consumption_semantics envNoSurface true (evScan BSP_INPUT_SCANCODE_P)).1 (by decide) rfl⟩

/-- C7: when the display subsystem yields no surface, or yields a surface
with no pixel buffer, `save_screenshot` aborts before the `fopen` call, so
no file is opened and no file is created. -/
theorem failure_leaves_no_file (env : Env)
    (h : env.buf = none ∨ ∃ b, env.buf = some b ∧ b.pixels = none) :
    openAttempted (save_screenshot env) = false ∧
    fileCreated (save_screenshot env) = none := by
  rcases h with h | ⟨b, hb, hp⟩
  · simp [save_screenshot, openAttempted, fileCreated, h]
  · simp [save_screenshot, openAttempted, fileCreated, hb, hp]

theorem failure_leaves_no_file_witness :
    (envNoSurface.buf = none ∨ ∃ b, envNoSurface.buf = some b ∧ b.pixels = none) ∧
    (openAttempted (save_screenshot envNoSurface) = false ∧
      fileCreated (save_screenshot envNoSurface) = none) :=
  ⟨Or.inl rfl, failure_leaves_no_file envNoSurface (Or.inl rfl)⟩

/-- C8: on a qualifying trigger press the callback always reports the event
handled and always resets ModifierState, in particular when the capture it
invoked failed and created no file. -/
theorem capture_failure_isolated (env : Env) (held : Bool) (e : PluginInputEvent)
    (ht : isTrigPress e = true) (hh : held = true)
    (_hfail : fileCreated (save_screenshot env) = none) :
    (input_hook_callback env held e).1 = true ∧
    (input_hook_callback env held e).2.1 = false ∧
    (input_hook_callback env held e).2.2 = some (save_screenshot env) := by
  rcases e with ⟨t, k⟩
  cases t <;>
    simp only [isTrigPress] at ht
  case other => cases ht
  subst hh
  have hk : k = BSP_INPUT_SCANCODE_P := by simpa using ht
  subst hk
  simp [input_hook_callback, BSP_INPUT_SCANCODE_P, BSP_INPUT_SCANCODE_LEFTMETA,
    BSP_INPUT_SCANCODE_RIGHTMETA, BSP_INPUT_SCANCODE_LEFTMETA_REL,
    BSP_INPUT_SCANCODE_RIGHTMETA_REL]

theorem capture_failure_isolated_witness :
    isTrigPress (evScan BSP_INPUT_SCANCODE_P) = true ∧
    fileCreated (save_screenshot envNoSurface) = none ∧
    ((input_hook_callback envNoSurface true (evScan BSP_INPUT_SCANCODE_P)).1 = true ∧
      (input_hook_callback envNoSurface true (evScan BSP_INPUT_SCANCODE_P)).2.1 = false ∧
      (input_hook_callback envNoSurface true (evScan BSP_INPUT_SCANCODE_P)).2.2 =
        some (save_screenshot envNoSurface)) :=
  ⟨by decide, by rfl,
    capture_failure_isolated envNoSurface true (evScan BSP_INPUT_SCANCODE_P)
      (by decide) rfl (by rfl)⟩

/-! ### Decimal formatting facts -/

lemma decAux_eq_digits : ∀ (fuel n : Nat), n ≤ fuel → decAux fuel n = Nat.digits 10 n := by
  intro fuel
  induction fuel with
  | zero =>
    intro n hn
    interval_cases n
    simp [decAux]
  | succ fuel ih =>
    intro n hn
    match n with
    | 0 => simp [decAux]
    | n + 1 =>
      rw [decAux, Nat.digits_def' (by norm_num : (1 : Nat) < 10) (Nat.succ_pos n),
        ih ((n + 1) / 10) ?_]
      have : (n + 1) / 10 < n + 1 := Nat.div_lt_self (Nat.succ_pos n) (by norm_num)
      omega

lemma decimal_eq_digits {n : Nat} (hn : n ≠ 0) :
    decimal n = (Nat.digits 10 n).reverse := by
  unfold decimal
  rw [if_neg hn, decAux_eq_digits n n le_rfl]

lemma decimal_digit_lt {n d : Nat} (hd : d ∈ decimal n) : d < 10 := by
  by_cases hn : n = 0
  · subst hn
    simp [decimal] at hd
    omega
  · rw [decimal_eq_digits hn, List.mem_reverse] at hd
    exact Nat.digits_lt_base (by norm_num) hd

lemma foldl_reverse_ofDigits :
    ∀ (l : List Nat) (a : Nat),
      l.reverse.foldl (fun acc d => 10 * acc + d) a =
        a * 10 ^ l.length + Nat.ofDigits 10 l := by
  intro l
  induction l with
  | nil => intro a; simp [Nat.ofDigits]
  | cons d ds ih =>
    intro a
    rw [List.reverse_cons, List.foldl_append, ih]
    simp only [List.foldl_cons, List.foldl_nil, List.length_cons, Nat.ofDigits_cons]
    ring

lemma foldl_decimal (n : Nat) :
    (decimal n).foldl (fun acc d => 10 * acc + d) 0 = n := by
  by_cases hn : n = 0
  · subst hn; rfl
  · rw [decimal_eq_digits hn, foldl_reverse_ofDigits, Nat.ofDigits_digits]
    ring

lemma decimal_length_le {n k : Nat} (hk : 1 ≤ k) (h : n < 10 ^ k) :
    (decimal n).length ≤ k := by
  by_cases hn : n = 0
  · subst hn; simpa [decimal] using hk
  · rw [decimal_eq_digits hn, List.length_reverse]
    by_contra hlen
    push_neg at hlen
    have h1 : 10 ^ (k + 1) ≤ 10 ^ (Nat.digits 10 n).length :=
      Nat.pow_le_pow_right (by norm_num) hlen
    have h2 : 10 ^ (Nat.digits 10 n).length ≤ 10 * n :=
      Nat.base_pow_length_digits_le 10 n (by norm_num) hn
    have h3 : 10 * 10 ^ k ≤ 10 * n := by
      calc 10 * 10 ^ k = 10 ^ (k + 1) := by ring
      _ ≤ 10 ^ (Nat.digits 10 n).length := h1
      _ ≤ 10 * n := h2
    omega

lemma decChars_length (n : Nat) : (decChars n).length = (decimal n).length := by
  simp [decChars]

lemma padDec_length {w n : Nat} (h : (decimal n).length ≤ w) :
    (padDec w n).length = w := by
  simp [padDec, decChars_length]
  omega

/-! ### C6: filename format -/

/-- C6: for every wall-clock local time (fields in their calendar ranges),
the destination path is exactly the fixed prefix `/sd/screenshot-` followed
by zero-padded year (4 digits), month (2 digits, 1-based), day, hour,
minute, second, and the suffix `.ppm`; in particular the `snprintf`
truncation never fires and the path is always 33 characters. -/
theorem filename_format (tm : Tm)
    (hy : tm.tm_year + 1900 < 10000) (hmo : tm.tm_mon ≤ 11) (hd : tm.tm_mday ≤ 31)
    (hh : tm.tm_hour ≤ 23) (hmi : tm.tm_min ≤ 59) (hs : tm.tm_sec ≤ 60) :
    screenshotFilename tm =
      String.data "/sd/screenshot-" ++
        padDec 4 (tm.tm_year + 1900) ++ padDec 2 (tm.tm_mon + 1) ++
        padDec 2 tm.tm_mday ++ padDec 2 tm.tm_hour ++ padDec 2 tm.tm_min ++
        padDec 2 tm.tm_sec ++ String.data ".ppm" ∧
    (screenshotFilename tm).length = 33 := by
  have hl1 : (padDec 4 (tm.tm_year + 1900)).length = 4 :=
    padDec_length (decimal_length_le (by norm_num) (by omega))
  have hl2 : (padDec 2 (tm.tm_mon + 1)).length = 2 :=
    padDec_length (decimal_length_le (by norm_num) (by omega))
  have hl3 : (padDec 2 tm.tm_mday).length = 2 :=
    padDec_length (decimal_length_le (by norm_num) (by omega))
  have hl4 : (padDec 2 tm.tm_hour).length = 2 :=
    padDec_length (decimal_length_le (by norm_num) (by omega))
  have hl5 : (padDec 2 tm.tm_min).length = 2 :=
    padDec_length (decimal_length_le (by norm_num) (by omega))
  have hl6 : (padDec 2 tm.tm_sec).length = 2 :=
    padDec_length (decimal_length_le (by norm_num) (by omega))
  have hlen :
      (String.data "/sd/screenshot-" ++
        padDec 4 (tm.tm_year + 1900) ++ padDec 2 (tm.tm_mon + 1) ++
        padDec 2 tm.tm_mday ++ padDec 2 tm.tm_hour ++ padDec 2 tm.tm_min ++
        padDec 2 tm.tm_sec ++ String.data ".ppm").length = 33 := by
    simp [hl1, hl2, hl3, hl4, hl5, hl6]
  have htake :
      screenshotFilename tm =
        String.data "/sd/screenshot-" ++
          padDec 4 (tm.tm_year + 1900) ++ padDec 2 (tm.tm_mon + 1) ++
          padDec 2 tm.tm_mday ++ padDec 2 tm.tm_hour ++ padDec 2 tm.tm_min ++
          padDec 2 tm.tm_sec ++ String.data ".ppm" := by
    have h63 :
        (String.data "/sd/screenshot-" ++
          padDec 4 (tm.tm_year + 1900) ++ padDec 2 (tm.tm_mon + 1) ++
          padDec 2 tm.tm_mday ++ padDec 2 tm.tm_hour ++ padDec 2 tm.tm_min ++
          padDec 2 tm.tm_sec ++ String.data ".ppm").length ≤ 63 := by
      rw [hlen]
      norm_num
    exact List.take_of_length_le h63
  exact ⟨htake, by rw [htake, hlen]⟩

/-- Local time 2024-03-05 09:07:02 as a `struct tm`. -/
def tmEx : Tm :=
  { tm_sec := 2, tm_min := 7, tm_hour := 9, tm_mday := 5, tm_mon := 2, tm_year := 124 }

theorem filename_format_witness :
    (tmEx.tm_year + 1900 < 10000 ∧ tmEx.tm_mon ≤ 11 ∧ tmEx.tm_mday ≤ 31 ∧
      tmEx.tm_hour ≤ 23 ∧ tmEx.tm_min ≤ 59 ∧ tmEx.tm_sec ≤ 60) ∧
    screenshotFilename tmEx = String.data "/sd/screenshot-20240305090702.ppm" :=
  ⟨by decide,
    ((filename_format tmEx (by decide) (by decide) (by decide) (by decide) (by decide)
      (by decide)).1).trans (by decide)⟩

/-! ### PPM header decoding (spec-side apparatus for the round-trip claim) -/

/-- An ASCII decimal digit byte. -/
def isDigitByte (b : Nat) : Bool :=
  decide (48 ≤ b) && decide (b ≤ 57)

/-- Parse a run of decimal digit bytes into a number, returning the rest. -/
def parseDec (l : List Nat) : Nat × List Nat :=
  ((l.takeWhile isDigitByte).foldl (fun acc b => 10 * acc + (b - 48)) 0,
    l.dropWhile isDigitByte)

/-- Expect one exact byte. -/
def expectByte (b : Nat) : List Nat → Option (List Nat)
  | x :: r => if x = b then some r else none
  | [] => none

/-- Decode a P6 PPM header: magic `P6`, newline, width, space, height,
newline, maximum channel value, newline; return the dimensions, the
maximum, and the remaining payload bytes. -/
def decodeHeader (f : List Nat) : Option (Nat × Nat × Nat × List Nat) :=
  (expectByte 80 f).bind fun r1 =>
  (expectByte 54 r1).bind fun r2 =>
  (expectByte 10 r2).bind fun r3 =>
  let pw := parseDec r3
  (expectByte 32 pw.2).bind fun r4 =>
  let ph := parseDec r4
  (expectByte 10 ph.2).bind fun r5 =>
  let pm := parseDec r5
  (expectByte 10 pm.2).bind fun payload =>
  some (pw.1, ph.1, pm.1, payload)

lemma takeWhile_append_eq {p : Nat → Bool} :
    ∀ l : List Nat, (∀ x ∈ l, p x = true) →
      ∀ (b : Nat) (r : List Nat), p b = false →
        (l ++ b :: r).takeWhile p = l ∧ (l ++ b :: r).dropWhile p = b :: r := by
  intro l
  induction l with
  | nil =>
    intro _ b r hb
    simp [List.takeWhile_cons, List.dropWhile_cons, hb]
  | cons x xs ih =>
    intro hall b r hb
    have hx : p x = true := hall x (by simp)
    have hrest := ih (fun y hy => hall y (by simp [hy])) b r hb
    simp [List.takeWhile_cons, List.dropWhile_cons, hx, hrest.1, hrest.2]

lemma decBytes_all_digits (n : Nat) : ∀ x ∈ decBytes n, isDigitByte x = true := by
  intro x hx
  simp only [decBytes, List.mem_map] at hx
  obtain ⟨d, hd, rfl⟩ := hx
  have hlt := decimal_digit_lt hd
  simp only [isDigitByte, Bool.and_eq_true, decide_eq_true_eq]
  omega

lemma parseDec_decBytes (n b : Nat) (r : List Nat) (hb : isDigitByte b = false) :
    parseDec (decBytes n ++ b :: r) = (n, b :: r) := by
  have hsplit := takeWhile_append_eq (decBytes n) (decBytes_all_digits n) b r hb
  unfold parseDec
  rw [hsplit.1, hsplit.2]
  have hfold : (decBytes n).foldl (fun acc b => 10 * acc + (b - 48)) 0 = n := by
    rw [decBytes, List.foldl_map]
    have hfun : (fun (acc x : Nat) => 10 * acc + (x + 48 - 48)) =
        fun acc x => 10 * acc + x := by
      funext acc x
      omega
    rw [hfun, foldl_decimal]
  rw [hfold]

lemma decodeHeader_header (w h : Nat) (payload : List Nat) :
    decodeHeader (ppmHeaderBytes w h ++ payload) = some (w, h, 255, payload) := by
  have e255 : decBytes 255 = [50, 53, 53] := by decide
  have e1 : ppmHeaderBytes w h ++ payload =
      80 :: 54 :: 10 ::
        (decBytes w ++ 32 :: (decBytes h ++ 10 :: (decBytes 255 ++ 10 :: payload))) := by
    simp [ppmHeaderBytes, e255]
  rw [e1]
  simp only [decodeHeader, expectByte, if_pos, Option.bind_some, Option.some_bind]
  rw [parseDec_decBytes w 32 _ (by decide)]
  simp only [expectByte, if_pos, Option.some_bind]
  rw [parseDec_decBytes h 10 _ (by decide)]
  simp only [expectByte, if_pos, Option.some_bind]
  rw [parseDec_decBytes 255 10 _ (by decide)]
  simp [expectByte]

/-! ### Payload indexing -/

lemma ppmPayload_flatten (w h : Nat) (p : Nat → Nat) :
    ppmPayload w h p =
      (List.range (h * w)).flatMap
        (fun i => [p (i * 3 + 2), p (i * 3 + 1), p (i * 3)]) := by
  induction h with
  | zero => simp [ppmPayload]
  | succ h ih =>
    unfold ppmPayload at ih ⊢
    rw [List.range_succ, List.flatMap_append, ih]
    have hmul : (h + 1) * w = h * w + w := by ring
    rw [hmul, List.range_add, List.flatMap_append]
    congr 1
    rw [List.flatMap_map]
    simp only [List.flatMap_cons, List.flatMap_nil, List.append_nil, Function.comp]

lemma flatMap_block_length (a b c : Nat → Nat) (n : Nat) :
    ((List.range n).flatMap fun j => [a j, b j, c j]).length = 3 * n := by
  induction n with
  | zero => simp
  | succ n ih =>
    rw [List.range_succ, List.flatMap_append, List.length_append, ih]
    simp
    omega

lemma flatMap_block_get (a b c : Nat → Nat) :
    ∀ n i : Nat, i < n →
      ((List.range n).flatMap fun j => [a j, b j, c j])[i * 3]? = some (a i) ∧
      ((List.range n).flatMap fun j => [a j, b j, c j])[i * 3 + 1]? = some (b i) ∧
      ((List.range n).flatMap fun j => [a j, b j, c j])[i * 3 + 2]? = some (c i) := by
  intro n
  induction n with
  | zero => intro i hi; omega
  | succ n ih =>
    intro i hi
    rw [List.range_succ, List.flatMap_append]
    have hlen := flatMap_block_length a b c n
    by_cases hin : i < n
    · obtain ⟨h1, h2, h3⟩ := ih i hin
      refine ⟨?_, ?_, ?_⟩
      · rw [List.getElem?_append_left (by rw [hlen]; omega)]
        exact h1
      · rw [List.getElem?_append_left (by rw [hlen]; omega)]
        exact h2
      · rw [List.getElem?_append_left (by rw [hlen]; omega)]
        exact h3
    · have hieq : i = n := by omega
      subst hieq
      refine ⟨?_, ?_, ?_⟩ <;>
        rw [List.getElem?_append_right (by rw [hlen]; omega)] <;>
        simp [hlen, Nat.mul_comm]

/-- C2: for every positive width and height and every source buffer of
BGR triplets, a successful capture writes the timestamped file whose
header decodes to P6 with width, height, and maximum 255, and whose
payload holds, for every pixel `i` below `w*h`, the three source bytes of
pixel `i` with the first and third channel swapped, rows top to bottom,
columns left to right. -/
theorem encoder_roundtrip (w h : Nat) (p : Nat → Nat) (tm : Tm)
    (_hw : 0 < w) (_hh : 0 < h) :
    fileCreated (save_screenshot
        { buf := some { width := w, height := h, pixels := some p },
          tm := tm, openOk := true }) =
      some (screenshotFilename tm, ppmHeaderBytes w h ++ ppmPayload w h p) ∧
    decodeHeader (ppmHeaderBytes w h ++ ppmPayload w h p) =
      some (w, h, 255, ppmPayload w h p) ∧
    ∀ i : Nat, i < w * h →
      (ppmPayload w h p)[i * 3]? = some (p (i * 3 + 2)) ∧
      (ppmPayload w h p)[i * 3 + 1]? = some (p (i * 3 + 1)) ∧
      (ppmPayload w h p)[i * 3 + 2]? = some (p (i * 3)) := by
  refine ⟨by simp [save_screenshot, fileCreated], decodeHeader_header w h _, ?_⟩
  intro i hi
  rw [ppmPayload_flatten]
  exact flatMap_block_get (fun j => p (j * 3 + 2)) (fun j => p (j * 3 + 1))
    (fun j => p (j * 3)) (h * w) i (by rwa [Nat.mul_comm w h] at hi)

theorem encoder_roundtrip_witness :
    ((0 : Nat) < 1 ∧ (0 : Nat) < 1) ∧
    decodeHeader (ppmHeaderBytes 1 1 ++ ppmPayload 1 1 (fun i => i)) =
      some (1, 1, 255, ppmPayload 1 1 (fun i => i)) ∧
    (ppmPayload 1 1 (fun i => i))[0]? = some 2 :=
  ⟨⟨Nat.one_pos, Nat.one_pos⟩,
    (encoder_roundtrip 1 1 (fun i => i) ⟨0, 0, 0, 1, 0, 70⟩ Nat.one_pos Nat.one_pos).2.1,
    by
      have hb := (encoder_roundtrip 1 1 (fun i => i) ⟨0, 0, 0, 1, 0, 70⟩
        Nat.one_pos Nat.one_pos).2.2 0 (by decide)
      simpa using hb.1⟩

/-! ### Lifecycle invariant -/

/-- Strengthened lifecycle invariant: never more unregister calls than
successful registrations, and while a handle is held one unregistration is
still outstanding. -/
def LifeInv (st : LifecycleState) : Prop :=
  st.unregs ≤ st.succRegs ∧ (0 ≤ st.hook_id → st.unregs < st.succRegs)

lemma plugin_init_inv (st : LifecycleState) (r : Int) (h : LifeInv st) :
    LifeInv (plugin_init st r).2 := by
  rcases h with ⟨h1, h2⟩
  unfold LifeInv plugin_init
  split_ifs with hr <;> simp <;> omega

lemma plugin_cleanup_inv (st : LifecycleState) (h : LifeInv st) :
    LifeInv (plugin_cleanup st) := by
  rcases h with ⟨h1, h2⟩
  unfold LifeInv plugin_cleanup
  split_ifs with hr
  · simp
    omega
  · exact ⟨h1, h2⟩

lemma runLifecycle_inv (ops : List LifecycleOp) :
    ∀ st : LifecycleState, LifeInv st → LifeInv (runLifecycle st ops) := by
  induction ops with
  | nil => intro st h; exact h
  | cons op rest ih =>
    intro st h
    cases op with
    | init r => exact ih _ (plugin_init_inv st r h)
    | cleanup => exact ih _ (plugin_cleanup_inv st h)

/-- C9: the stored hook handle is nonnegative exactly while a registration
is held.  A failed registration makes init return `-1` with a negative
handle; cleanup unregisters only when the handle is nonnegative and then
sets it to `-1`, so a second cleanup (or a cleanup after failed init) does
not unregister; over any host-driven lifecycle starting fresh, unregister
is called at most once per successful registration. -/
theorem lifecycle_handle_invariant :
    (∀ ops : List LifecycleOp,
      (runLifecycle initialLifecycleState ops).unregs ≤
        (runLifecycle initialLifecycleState ops).succRegs) ∧
    (∀ (st : LifecycleState) (r : Int), r < 0 →
      (plugin_init st r).1 = -1 ∧ (plugin_init st r).2.hook_id < 0) ∧
    (∀ st : LifecycleState, st.hook_id < 0 → plugin_cleanup st = st) ∧
    (∀ st : LifecycleState, 0 ≤ st.hook_id →
      (plugin_cleanup st).hook_id = -1 ∧ (plugin_cleanup st).unregs = st.unregs + 1) ∧
    (∀ st : LifecycleState, (plugin_cleanup (plugin_cleanup st)).unregs ≤ st.unregs + 1) := by
  refine ⟨?_, ?_, ?_, ?_, ?_⟩
  · intro ops
    exact (runLifecycle_inv ops initialLifecycleState (by simp [LifeInv, initialLifecycleState])).1
  · intro st r hr
    simp [plugin_init, hr]
  · intro st hst
    simp [plugin_cleanup, not_le.mpr hst]
  · intro st hst
    simp [plugin_cleanup, hst]
  · intro st
    unfold plugin_cleanup
    split_ifs <;> simp_all

theorem lifecycle_handle_invariant_witness :
    ((-3 : Int) < 0 ∧ (plugin_init initialLifecycleState (-3)).1 = -1 ∧
      (plugin_init initialLifecycleState (-3)).2.hook_id < 0) ∧
    (initialLifecycleState.hook_id < 0 ∧
      plugin_cleanup initialLifecycleState = initialLifecycleState) :=
  ⟨⟨by decide, lifecycle_handle_invariant.2.1 initialLifecycleState (-3) (by decide)⟩,
    ⟨by decide, lifecycle_handle_invariant.2.2.1 initialLifecycleState (by decide)⟩⟩

/-- C10: the capture is deterministic — two invocations observing the same
framebuffer dimensions, pointwise-equal pixel bytes, and the same local
time, with all I/O succeeding, compute the same destination path and write
the same byte sequence. -/
theorem capture_deterministic (b₁ b₂ : PaxBuf) (tm : Tm) (p₁ p₂ : Nat → Nat)
    (hw : b₁.width = b₂.width) (hh : b₁.height = b₂.height)
    (hp₁ : b₁.pixels = some p₁) (hp₂ : b₂.pixels = some p₂)
    (hpix : ∀ i, p₁ i = p₂ i) :
    save_screenshot { buf := some b₁, tm := tm, openOk := true } =
      save_screenshot { buf := some b₂, tm := tm, openOk := true } ∧
    fileCreated (save_screenshot { buf := some b₁, tm := tm, openOk := true }) =
      some (screenshotFilename tm,
        ppmHeaderBytes b₁.width b₁.height ++ ppmPayload b₁.width b₁.height p₁) := by
  have hp : p₁ = p₂ := funext hpix
  subst hp
  constructor
  · simp [save_screenshot, hp₁, hp₂, hw, hh]
  · simp [save_screenshot, fileCreated, hp₁]

/-- A 1×1 sample framebuffer used by witnesses. -/
def bufEx : PaxBuf :=
  { width := 1, height := 1, pixels := some (fun i => i % 7) }

theorem capture_deterministic_witness :
    (bufEx.width = bufEx.width ∧ bufEx.height = bufEx.height ∧
      bufEx.pixels = some (fun i => i % 7) ∧ (∀ i : Nat, i % 7 = i % 7)) ∧
    save_screenshot { buf := some bufEx, tm := ⟨0, 0, 0, 1, 0, 70⟩, openOk := true } =
      save_screenshot { buf := some bufEx, tm := ⟨0, 0, 0, 1, 0, 70⟩, openOk := true } :=
  ⟨⟨rfl, rfl, rfl, fun _ => rfl⟩,
    (capture_deterministic bufEx bufEx ⟨0, 0, 0, 1, 0, 70⟩ (fun i => i % 7) (fun i => i % 7)
      rfl rfl rfl rfl (fun _ => rfl)).1⟩

/-! ### C4: no capture without a chord -/

/-- A chord occurrence inside an event sequence: some modifier press,
followed (with no modifier release in between) by some trigger press. -/
def ChordPattern (l : List PluginInputEvent) : Prop :=
  ∃ (l₁ : List PluginInputEvent) (m : PluginInputEvent) (mid : List PluginInputEvent)
    (t : PluginInputEvent) (l₂ : List PluginInputEvent),
    l = l₁ ++ m :: (mid ++ t :: l₂) ∧ isModPress m = true ∧ isTrigPress t = true ∧
    ∀ e ∈ mid, isModRelease e = false

/-- Any run of the callback that fires at least one capture exposes either
a trigger press reachable from an initially-held modifier with no release
before it, or a full chord occurrence inside the event list. -/
lemma captures_shape (env : Env) :
    ∀ (l : List PluginInputEvent) (held : Bool),
      0 < (runEvents env held l).2 →
      (held = true ∧ ∃ (mid : List PluginInputEvent) (t : PluginInputEvent)
        (l₂ : List PluginInputEvent),
        l = mid ++ t :: l₂ ∧ isTrigPress t = true ∧ ∀ e ∈ mid, isModRelease e = false) ∨
      ChordPattern l := by
  intro l
  induction l with
  | nil =>
    intro held h
    simp [runEvents] at h
  | cons e rest ih =>
    intro held h
    by_cases hfire : (input_hook_callback env held e).2.2.isSome = true
    · obtain ⟨ht, hheld⟩ := fired_imp env held e hfire
      exact Or.inl ⟨hheld, [], e, rest, rfl, ht, by simp⟩
    · replace hfire : (input_hook_callback env held e).2.2.isSome = false := by
        simpa using hfire
      have hrest : 0 < (runEvents env (input_hook_callback env held e).2.1 rest).2 := by
        simp only [runEvents, hfire] at h
        simpa using h
      rcases ih (input_hook_callback env held e).2.1 hrest with
        ⟨hheld2, mid, t, l₂, hsplit, ht, hmid⟩ | hcp
      · rcases newHeld_true_imp env held e hfire hheld2 with hmp | ⟨hheld, hrel⟩
        · exact Or.inr ⟨[], e, mid, t, l₂, by rw [hsplit]; rfl, hmp, ht, hmid⟩
        · refine Or.inl ⟨hheld, e :: mid, t, l₂, by rw [hsplit]; simp, ht, ?_⟩
          intro x hx
          rcases List.mem_cons.mp hx with rfl | hx
          · exact hrel
          · exact hmid x hx
      · obtain ⟨l₁, m, mid, t, l₂, hsplit, hm, ht, hmid⟩ := hcp
        exact Or.inr ⟨e :: l₁, m, mid, t, l₂, by rw [hsplit]; rfl, hm, ht, hmid⟩

/-- C4: starting from ModifierState not-held, an event sequence in which no
trigger press is preceded by a modifier press without an intervening
modifier release never invokes the capture. -/
theorem no_false_trigger (env : Env) (l : List PluginInputEvent)
    (h : ¬ ChordPattern l) : (runEvents env false l).2 = 0 := by
  by_contra hne
  have hpos : 0 < (runEvents env false l).2 := Nat.pos_of_ne_zero hne
  rcases captures_shape env l false hpos with ⟨hfalse, _⟩ | hcp
  · cases hfalse
  · exact h hcp

/-- The P4 sequence: modifier press, modifier release, trigger press. -/
def releaseClearsSeq : List PluginInputEvent :=
  [evScan BSP_INPUT_SCANCODE_LEFTMETA, evScan BSP_INPUT_SCANCODE_LEFTMETA_REL,
    evScan BSP_INPUT_SCANCODE_P]

lemma releaseClearsSeq_no_chord : ¬ ChordPattern releaseClearsSeq := by
  rintro ⟨l₁, m, mid, t, l₂, hsplit, hm, ht, hmid⟩
  rcases l₁ with _ | ⟨a, l₁⟩
  · simp only [releaseClearsSeq, List.nil_append, List.cons.injEq] at hsplit
    obtain ⟨rfl, hrest⟩ := hsplit
    rcases mid with _ | ⟨b, mid⟩
    · simp only [List.nil_append, List.cons.injEq] at hrest
      obtain ⟨rfl, _⟩ := hrest
      simp [isTrigPress, evScan, BSP_INPUT_SCANCODE_LEFTMETA_REL,
        BSP_INPUT_SCANCODE_P] at ht
    · simp only [List.cons_append, List.cons.injEq] at hrest
      obtain ⟨rfl, hrest2⟩ := hrest
      have := hmid (evScan BSP_INPUT_SCANCODE_LEFTMETA_REL) (by simp)
      simp [isModRelease, evScan, BSP_INPUT_SCANCODE_LEFTMETA_REL,
        BSP_INPUT_SCANCODE_RIGHTMETA_REL] at this
  · rcases l₁ with _ | ⟨b, l₁⟩
    · simp only [releaseClearsSeq, List.cons_append, List.nil_append,
        List.cons.injEq] at hsplit
      obtain ⟨rfl, rfl, _⟩ := hsplit
      simp [isModPress, evScan, BSP_INPUT_SCANCODE_LEFTMETA_REL,
        BSP_INPUT_SCANCODE_LEFTMETA, BSP_INPUT_SCANCODE_RIGHTMETA] at hm
    · rcases l₁ with _ | ⟨c, l₁⟩
      · simp only [releaseClearsSeq, List.cons_append, List.nil_append,
          List.cons.injEq] at hsplit
        obtain ⟨rfl, rfl, rfl, _⟩ := hsplit
        simp [isModPress, evScan, BSP_INPUT_SCANCODE_P,
          BSP_INPUT_SCANCODE_LEFTMETA, BSP_INPUT_SCANCODE_RIGHTMETA] at hm
      · have hlen := congrArg List.length hsplit
        simp [releaseClearsSeq] at hlen

theorem no_false_trigger_witness :
    ¬ ChordPattern releaseClearsSeq ∧
    (runEvents envNoSurface false releaseClearsSeq).2 = 0 :=
  ⟨releaseClearsSeq_no_chord,
    no_false_trigger envNoSurface releaseClearsSeq releaseClearsSeq_no_chord⟩

end Screenshot
